import Mathlib

/-!
Verification development for the English-literature revision quiz app
(single-file Flask application `app.py`).

The development shallowly embeds the two logic-bearing components:

* the quiz generation pipeline of `generate_quiz` — model fallback chain,
  JSON extraction with a largest-substring search and a whole-text fallback,
  and per-question validation/repair;
* the client-side quiz session state machine — `selectOption`,
  `skipQuestion`, `updateStats`, `nextQuestion`, `showResults`.

Python/JavaScript values that matter to the logic are modelled exactly:
JSON documents as an inductive `Json` type produced by an executable JSON
parser (objects keep first-insertion key order with last-value-wins, as
Python dicts do), Python exceptions as `Except Unit`, and JavaScript
truthiness of the answer-entry fields by case analysis on the entry shape.
The network call to the generative-model SDK is abstracted as an oracle
from model name to call outcome; everything downstream of the response
text is computed by the embedding.

Known deliberate approximations, none of which is exercised by any theorem
below: the JSON parser rejects fractional/exponent number literals,
`NaN`/`Infinity`, and lone surrogate escapes (Python's `json.loads`
accepts these); whitespace classes are the ASCII ones.
-/

/-! ### JSON values (Python `json.loads` result model) -/

inductive Json where
  | null : Json
  | bool (b : Bool) : Json
  | num (n : Int) : Json
  | str (s : String) : Json
  | arr (elems : List Json) : Json
  | obj (fields : List (String × Json)) : Json

/-- Brace characters, kept out of string literals on purpose. -/
def lbrace : Char := Char.ofNat 123

def rbrace : Char := Char.ofNat 125

/-- Association-list lookup: first matching key (keys are unique in parsed
objects, mirroring a Python dict). -/
def getKeyF : List (String × Json) → String → Option Json
  | [], _ => none
  | (k', v) :: rest, k => if k' = k then some v else getKeyF rest k

/-- Dict-style insertion: overwrite in place if the key exists (keeping the
original key position, as CPython dicts do), else append. -/
def insertKey (f : List (String × Json)) (k : String) (v : Json) : List (String × Json) :=
  if f.any (fun p => p.1 = k) then f.map (fun p => if p.1 = k then (k, v) else p)
  else f ++ [(k, v)]

def Json.getKey : Json → String → Option Json
  | .obj f, k => getKeyF f k
  | _, _ => none

/-- Replace the value of a key on an object; identity on non-objects. -/
def Json.setKey : Json → String → Json → Json
  | .obj f, k, v => .obj (insertKey f k v)
  | j, _, _ => j

/-! ### Character classes and substring search -/

/-- JSON inter-token whitespace (what `json.loads` skips). -/
def isJsonWs (c : Char) : Bool :=
  c = ' ' || c = '\t' || c = '\n' || c = Char.ofNat 13

/-- Python `str.strip` / regex `\s` whitespace (ASCII part). -/
def isPyWs (c : Char) : Bool :=
  c = ' ' || c = '\t' || c = '\n' || c = Char.ofNat 13 || c = Char.ofNat 12 || c = Char.ofNat 11

def jskip (s : List Char) : List Char := s.dropWhile isJsonWs

def pyStrip (s : List Char) : List Char :=
  ((s.dropWhile isPyWs).reverse.dropWhile isPyWs).reverse

/-- Is `pat` an infix of `s`?  (Python `pat in s` on strings.) -/
def containsPat (pat : List Char) : List Char → Bool
  | [] => pat.isEmpty
  | c :: rest => pat.isPrefixOf (c :: rest) || containsPat pat rest

def containsStr (s pat : String) : Bool := containsPat pat.toList s.toList

/-! ### JSON parser (model of Python `json.loads`) -/

def hexVal (c : Char) : Option Nat :=
  if c.isDigit then some (c.toNat - 48)
  else if 'a' ≤ c ∧ c ≤ 'f' then some (c.toNat - 87)
  else if 'A' ≤ c ∧ c ≤ 'F' then some (c.toNat - 55)
  else none

/-- String-body scanner, entered after the opening quote.  Handles the JSON
escapes (including `\uXXXX` with surrogate pairs) and rejects raw control
characters, as Python's strict decoder does.  Fuel bounds the recursion and
is always at least the remaining length at call sites. -/
def pStringGo : Nat → List Char → List Char → Option (String × List Char)
  | 0, _, _ => none
  | _ + 1, [], _ => none
  | fuel + 1, c :: r, acc =>
    if c = '"' then some (String.mk acc.reverse, r)
    else if c = '\\' then
      match r with
      | [] => none
      | e :: r2 =>
        if e = '"' then pStringGo fuel r2 ('"' :: acc)
        else if e = '\\' then pStringGo fuel r2 ('\\' :: acc)
        else if e = '/' then pStringGo fuel r2 ('/' :: acc)
        else if e = 'b' then pStringGo fuel r2 (Char.ofNat 8 :: acc)
        else if e = 'f' then pStringGo fuel r2 (Char.ofNat 12 :: acc)
        else if e = 'n' then pStringGo fuel r2 ('\n' :: acc)
        else if e = 'r' then pStringGo fuel r2 (Char.ofNat 13 :: acc)
        else if e = 't' then pStringGo fuel r2 ('\t' :: acc)
        else if e = 'u' then
          match r2 with
          | h1 :: h2 :: h3 :: h4 :: r3 =>
            match hexVal h1, hexVal h2, hexVal h3, hexVal h4 with
            | some a, some b, some c3, some d =>
              let n := ((a * 16 + b) * 16 + c3) * 16 + d
              if n < 0xD800 ∨ 0xE000 ≤ n then pStringGo fuel r3 (Char.ofNat n :: acc)
              else if n < 0xDC00 then
                match r3 with
                | e2 :: u2 :: g1 :: g2 :: g3 :: g4 :: r5 =>
                  if e2 = '\\' ∧ u2 = 'u' then
                    match hexVal g1, hexVal g2, hexVal g3, hexVal g4 with
                    | some a2, some b2, some c2, some d2 =>
                      let m := ((a2 * 16 + b2) * 16 + c2) * 16 + d2
                      if 0xDC00 ≤ m ∧ m < 0xE000 then
                        pStringGo fuel r5
                          (Char.ofNat (0x10000 + (n - 0xD800) * 0x400 + (m - 0xDC00)) :: acc)
                      else none
                    | _, _, _, _ => none
                  else none
                | _ => none
              else none
            | _, _, _, _ => none
          | _ => none
        else none
    else if c.toNat < 32 then none
    else pStringGo fuel r (c :: acc)

def pString (s : List Char) : Option (String × List Char) :=
  pStringGo (s.length + 1) s []

def digitsToNat (ds : List Char) : Nat :=
  ds.foldl (fun a c => a * 10 + (c.toNat - 48)) 0

/-- Unsigned integer literal: at least one digit, no redundant leading zero,
and not followed by a fraction/exponent marker (fractional numbers are not
modelled; see the header note). -/
def pNatNum (s : List Char) : Option (Nat × List Char) :=
  let ds := s.takeWhile Char.isDigit
  let r := s.drop ds.length
  if ds.isEmpty then none
  else if ds.length > 1 ∧ ds.head? = some '0' then none
  else
    match r with
    | c :: _ => if c = '.' ∨ c = 'e' ∨ c = 'E' then none else some (digitsToNat ds, r)
    | [] => some (digitsToNat ds, r)

def pNumber (s : List Char) : Option (Int × List Char) :=
  match s with
  | '-' :: r =>
    match pNatNum r with
    | some (n, r2) => some (-(n : Int), r2)
    | none => none
  | _ =>
    match pNatNum s with
    | some (n, r2) => some ((n : Int), r2)
    | none => none

mutual

/-- JSON value parser.  Expects no leading whitespace; fuel bounds nesting
and is generous at the call site. -/
def pVal : Nat → List Char → Option (Json × List Char)
  | 0, _ => none
  | _ + 1, [] => none
  | fuel + 1, c :: r =>
    if c = '"' then
      match pString r with
      | some (t, r2) => some (.str t, r2)
      | none => none
    else if c = lbrace then
      let r1 := jskip r
      match r1 with
      | d :: r2 => if d = rbrace then some (.obj [], r2) else pObjItems fuel r1 []
      | [] => none
    else if c = '[' then
      let r1 := jskip r
      match r1 with
      | d :: r2 => if d = ']' then some (.arr [], r2) else pArrItems fuel r1 []
      | [] => none
    else if c = 'n' then
      match r with
      | 'u' :: 'l' :: 'l' :: r2 => some (.null, r2)
      | _ => none
    else if c = 't' then
      match r with
      | 'r' :: 'u' :: 'e' :: r2 => some (.bool true, r2)
      | _ => none
    else if c = 'f' then
      match r with
      | 'a' :: 'l' :: 's' :: 'e' :: r2 => some (.bool false, r2)
      | _ => none
    else if c = '-' ∨ c.isDigit then
      match pNumber (c :: r) with
      | some (n, r2) => some (.num n, r2)
      | none => none
    else none

def pArrItems : Nat → List Char → List Json → Option (Json × List Char)
  | 0, _, _ => none
  | fuel + 1, s, acc =>
    match pVal fuel s with
    | none => none
    | some (v, r) =>
      match jskip r with
      | d :: r2 =>
        if d = ',' then pArrItems fuel (jskip r2) (acc ++ [v])
        else if d = ']' then some (.arr (acc ++ [v]), r2)
        else none
      | [] => none

def pObjItems : Nat → List Char → List (String × Json) → Option (Json × List Char)
  | 0, _, _ => none
  | fuel + 1, s, acc =>
    match s with
    | c :: r =>
      if c = '"' then
        match pString r with
        | none => none
        | some (k, r1) =>
          match jskip r1 with
          | d :: r2 =>
            if d = ':' then
              match pVal fuel (jskip r2) with
              | none => none
              | some (v, r3) =>
                match jskip r3 with
                | e :: r4 =>
                  if e = ',' then pObjItems fuel (jskip r4) (insertKey acc k v)
                  else if e = rbrace then some (.obj (insertKey acc k v), r4)
                  else none
                | [] => none
            else none
          | [] => none
      else none
    | [] => none

end

/-- Model of `json.loads`: one JSON document, surrounded by optional
whitespace only. -/
def json_loads (s : String) : Option Json :=
  let cs := jskip s.toList
  match pVal (2 * cs.length + 2) cs with
  | some (v, rest) => if (jskip rest).isEmpty then some v else none
  | none => none

/-! ### Python operation semantics on JSON values

Operations whose Python counterparts can raise (`TypeError`/`KeyError`) are
modelled in `Except Unit`; an `.error` routes to the enclosing `except`
handler of `generate_quiz`, which returns `None`. -/

/-- Python `len(x)` on a decoded JSON value. -/
def pyLen : Json → Except Unit Nat
  | .str s => .ok s.length
  | .arr l => .ok l.length
  | .obj f => .ok f.length
  | _ => .error ()

/-- Equality test a Python `str == element` performs during list membership:
true only against an equal string. -/
def jsonIsStr (j : Json) (k : String) : Bool :=
  match j with
  | .str s => s = k
  | _ => false

/-- Python `k in x` for a decoded JSON value: key test on dicts, membership
on lists, substring on strings, `TypeError` otherwise. -/
def pyContains (j : Json) (k : String) : Except Unit Bool :=
  match j with
  | .obj f => .ok (getKeyF f k).isSome
  | .arr l => .ok (l.any (fun e => jsonIsStr e k))
  | .str s => .ok (containsStr s k)
  | _ => .error ()

/-- Python `x[k]` with a string key: dict lookup, `TypeError`/`KeyError`
otherwise. -/
def pyGetItem (j : Json) (k : String) : Except Unit Json :=
  match j with
  | .obj f =>
    match getKeyF f k with
    | some v => .ok v
    | none => .error ()
  | _ => .error ()

/-- Numeric value Python uses in `q['correct'] >= len(...)`: ints compare
directly, bools as 0/1, anything else raises `TypeError`. -/
def correctVal : Json → Except Unit Int
  | .num n => .ok n
  | .bool b => .ok (if b then 1 else 0)
  | _ => .error ()

/-! ### Response extraction and validation (`generate_quiz` lines 246-286) -/

/-- The placeholder options substituted when `options` is missing or shorter
than 4 entries. -/
def defaultOptions : Json :=
  .arr [.str "Option A", .str "Option B", .str "Option C", .str "Option D"]

/-- `if q['correct'] >= len(q['options']): q['correct'] = 0`, after both
sides evaluated without raising. -/
def clampCorrect (f : List (String × Json)) (c : Int) (len : Nat) : List (String × Json) :=
  if c ≥ (len : Int) then insertKey f "correct" (.num 0) else f

/-- `if k not in q: q[k] = v`. -/
def fillField (f : List (String × Json)) (k : String) (v : Json) : List (String × Json) :=
  if (getKeyF f k).isSome then f else insertKey f k v

/-- Steps 3-5 of the per-question repair, entered with `correct` and
`options` keys both present: clamp an out-of-range `correct` to 0, then
fill absent `explanation`/`keyword` with placeholders. -/
def repairQ3 (f : List (String × Json)) : Except Unit Json :=
  match getKeyF f "correct", getKeyF f "options" with
  | some cj, some opts =>
    match correctVal cj, pyLen opts with
    | .ok c, .ok len =>
      .ok (.obj (fillField
        (fillField (clampCorrect f c len) "explanation" (.str "Review this concept carefully."))
        "keyword" (.str "Important concept")))
    | _, _ => .error ()
  | _, _ => .error ()

/-- `if 'correct' not in q: q['correct'] = 0` — the first repair step. -/
def ensureCorrect (f : List (String × Json)) : List (String × Json) :=
  if (getKeyF f "correct").isSome then f else insertKey f "correct" (.num 0)

/-- Validation/repair of one parsed question record (the body of the
`for q in quiz_data['questions']` loop).  Any non-dict `q` eventually hits a
`TypeError` in that body, so those map to `.error`. -/
def repairQ (q : Json) : Except Unit Json :=
  match q with
  | .obj f0 =>
    match getKeyF (ensureCorrect f0) "options" with
    | none => repairQ3 (insertKey (ensureCorrect f0) "options" defaultOptions)
    | some opts =>
      match pyLen opts with
      | .error e => .error e
      | .ok len =>
        if len < 4 then repairQ3 (insertKey (ensureCorrect f0) "options" defaultOptions)
        else repairQ3 (ensureCorrect f0)
  | _ => .error ()

/-- Sequential repair of the whole questions list; the first failing entry
aborts (the Python loop raises there). -/
def repairAll : List Json → Except Unit (List Json)
  | [] => .ok []
  | q :: rest =>
    match repairQ q with
    | .error e => .error e
    | .ok q' =>
      match repairAll rest with
      | .error e => .error e
      | .ok rest' => .ok (q' :: rest')

/-- Worker for `removeFence`; the input shrinks at every step, so fuel at
least the input length makes the first branch unreachable. -/
def removeFenceGo (pat : List Char) : Nat → List Char → List Char
  | 0, _ => []
  | _ + 1, [] => []
  | fuel + 1, c :: rest =>
    if pat.isPrefixOf (c :: rest) ∧ pat.length > 0 then
      removeFenceGo pat fuel (List.dropWhile isPyWs (List.drop (pat.length - 1) rest))
    else c :: removeFenceGo pat fuel rest

/-- Model of `re.sub(pat + r'\s*', '', s)` for a literal `pat`: remove each
occurrence of `pat` together with the whitespace that follows it, scanning
left to right. -/
def removeFence (pat s : List Char) : List Char := removeFenceGo pat (s.length + 1) s

/-- The fence-stripping preprocessing of `generate_quiz` (lines 251-252). -/
def cleanResponse (raw : String) : List Char :=
  removeFence ("```".toList) (removeFence ("```json".toList) raw.toList)

def questionsPat : List Char := "\"questions\"".toList

/-- Split a string around the first occurrence of `pat` (nonempty), if any. -/
def splitFirstOccur (pat : List Char) : List Char → Option (List Char × List Char)
  | [] => none
  | c :: rest =>
    if pat.isPrefixOf (c :: rest) then some ([], (c :: rest).drop pat.length)
    else
      match splitFirstOccur pat rest with
      | some (a, b) => some (c :: a, b)
      | none => none

/-- Truncate a string just after its last closing brace. -/
def takeToLastBrace (l : List Char) : List Char :=
  (l.reverse.dropWhile (fun c => ¬ c = rbrace)).reverse

/-- Model of `re.search(r'\{[\s\S]*"questions"[\s\S]*\}', s)`: the match (if
any) starts at the first brace that is followed by `"questions"` and later a
closing brace, and extends greedily to the last closing brace of the text. -/
def regexSearchQ : List Char → Option (List Char)
  | [] => none
  | c :: t =>
    if c = lbrace then
      match splitFirstOccur questionsPat t with
      | some (a, b) =>
        if b.contains rbrace then some (lbrace :: (a ++ questionsPat ++ takeToLastBrace b))
        else none
      | none => none
    else regexSearchQ t

/-- Outcome of the first (largest-substring) extraction attempt. -/
inductive P1Result where
  | fallthrough : P1Result
  | ret (j : Json) : P1Result
  | raised : P1Result

/-- The validation block run on a successfully parsed match (lines 259-273):
`if 'questions' in quiz_data and len(quiz_data['questions']) > 0`, then the
repair loop, returning the (mutated) record.  `.raised` models a
`TypeError` escaping to the outer handler — it does NOT reach the
whole-text fallback. -/
def validateParsed (qd : Json) : P1Result :=
  match pyContains qd "questions" with
  | .error _ => .raised
  | .ok false => .fallthrough
  | .ok true =>
    match pyGetItem qd "questions" with
    | .error _ => .raised
    | .ok qv =>
      match pyLen qv with
      | .error _ => .raised
      | .ok n =>
        if n > 0 then
          match qv with
          | .arr qs =>
            match repairAll qs with
            | .error _ => .raised
            | .ok qs' => .ret (Json.setKey qd "questions" (.arr qs'))
          | _ => .raised
        else .fallthrough

/-- The largest-substring extraction path (lines 255-275): regex search, a
parse attempt whose `JSONDecodeError` falls through to the whole-text
fallback, then validation. -/
def path1 (t2 : List Char) : P1Result :=
  match regexSearchQ t2 with
  | none => .fallthrough
  | some m =>
    match json_loads (String.mk m) with
    | none => .fallthrough
    | some qd => validateParsed qd

/-- The response extractor/validator of `generate_quiz` (lines 246-286):
fence stripping, the largest-substring path, then the whole-text fallback
`json.loads(response_text.strip())` guarded only by `'questions' in
quiz_data`.  `none` is the `return None` of the source (including every
exception path). -/
def extract_quiz (raw : String) : Option Json :=
  let t2 := cleanResponse raw
  match path1 t2 with
  | .ret j => some j
  | .raised => none
  | .fallthrough =>
    match json_loads (String.mk (pyStrip t2)) with
    | none => none
    | some v =>
      match pyContains v "questions" with
      | .error _ => none
      | .ok true => some v
      | .ok false => none

/-! ### Chapter catalog (`FIRST_FLIGHT_CHAPTERS`, `FOOTPRINTS_CHAPTERS`) -/

structure Chapter where
  id : String
  name : String
  ctype : String
deriving DecidableEq

def first_flight_prose : List Chapter :=
  [⟨"ff_p1", "A Letter to God", "prose"⟩,
   ⟨"ff_p2", "Nelson Mandela: Long Walk to Freedom", "prose"⟩,
   ⟨"ff_p3", "Two Stories about Flying", "prose"⟩,
   ⟨"ff_p4", "From the Diary of Anne Frank", "prose"⟩,
   ⟨"ff_p5", "Glimpses of India", "prose"⟩,
   ⟨"ff_p6", "Mijbil the Otter", "prose"⟩,
   ⟨"ff_p7", "Madam Rides the Bus", "prose"⟩,
   ⟨"ff_p8", "The Sermon at Benares", "prose"⟩,
   ⟨"ff_p9", "The Proposal", "prose"⟩]

def first_flight_poetry : List Chapter :=
  [⟨"ff_po1", "Dust of Snow & Fire and Ice", "poetry"⟩,
   ⟨"ff_po2", "A Tiger in the Zoo", "poetry"⟩,
   ⟨"ff_po3", "How to Tell Wild Animals & The Ball Poem", "poetry"⟩,
   ⟨"ff_po4", "Amanda!", "poetry"⟩,
   ⟨"ff_po5", "Animals & The Trees", "poetry"⟩,
   ⟨"ff_po6", "Fog & The Tale of Custard the Dragon", "poetry"⟩,
   ⟨"ff_po7", "For Anne Gregory", "poetry"⟩]

def footprints_chapters : List Chapter :=
  [⟨"fp_1", "A Triumph of Surgery", "story"⟩,
   ⟨"fp_2", "The Thief\x27s Story", "story"⟩,
   ⟨"fp_3", "The Midnight Visitor", "story"⟩,
   ⟨"fp_4", "A Question of Trust", "story"⟩,
   ⟨"fp_5", "Footprints Without Feet", "story"⟩,
   ⟨"fp_6", "The Making of a Scientist", "story"⟩,
   ⟨"fp_7", "The Necklace", "story"⟩,
   ⟨"fp_8", "The Hack Driver", "story"⟩,
   ⟨"fp_9", "Bholi", "story"⟩,
   ⟨"fp_10", "The Book That Saved the Earth", "story"⟩]

structure ChapterInfo where
  id : String
  name : String
  ctype : String
  book : String
deriving DecidableEq

def withBook (b : String) (c : Chapter) : ChapterInfo := ⟨c.id, c.name, c.ctype, b⟩

/-- `get_chapter_info` (lines 90-101): linear search through the three
chapter lists, tagging the containing book. -/
def get_chapter_info (chapter_id : String) : Option ChapterInfo :=
  match first_flight_prose.find? (fun c => c.id = chapter_id) with
  | some c => some (withBook "First Flight" c)
  | none =>
    match first_flight_poetry.find? (fun c => c.id = chapter_id) with
    | some c => some (withBook "First Flight" c)
    | none =>
      match footprints_chapters.find? (fun c => c.id = chapter_id) with
      | some c => some (withBook "Footprints Without Feet" c)
      | none => none

/-! ### Model fallback chain (lines 215-244) -/

/-- Outcome of one `model.generate_content(prompt)` call, abstracted as an
oracle from model name to outcome: a response with its `.text` (possibly
empty), or an exception whose `str()` is `msg`. -/
inductive CallResult where
  | ok (text : String) : CallResult
  | err (msg : String) : CallResult

def models_to_try : List String :=
  ["gemini-2.5-flash-lite", "gemini-2.0-flash", "gemini-1.5-flash", "gemini-1.5-pro"]

/-- `"429" in error_str or "quota" in error_str.lower()`. -/
def isQuotaErr (msg : String) : Bool :=
  containsStr msg "429" || containsStr msg.toLower "quota"

/-- `"not found" in error_str.lower() or "does not exist" in error_str.lower()`. -/
def isUnavailableErr (msg : String) : Bool :=
  containsStr msg.toLower "not found" || containsStr msg.toLower "does not exist"

/-- Result of the candidate loop. -/
inductive LoopResult where
  | success (text : String) : LoopResult
  | fatal (msg : String) : LoopResult
  | exhausted (lastError : Option String) : LoopResult
deriving DecidableEq

/-- The candidate loop of `generate_quiz`: break on the first non-empty
response text; a quota or model-unavailable exception records `last_error`
and continues; any other exception re-raises (`.fatal`); an empty-text
response continues without recording an error.  After the loop, a recorded
`last_error` is re-raised, else `None` is returned — both collapse to
`none` at the `generate_quiz` boundary. -/
def tryModels (call : String → CallResult) : List String → Option String → LoopResult
  | [], lastErr => .exhausted lastErr
  | m :: rest, lastErr =>
    match call m with
    | .ok t => if t = "" then tryModels call rest lastErr else .success t
    | .err msg =>
      if isQuotaErr msg then tryModels call rest (some msg)
      else if isUnavailableErr msg then tryModels call rest (some msg)
      else .fatal msg

/-- `generate_quiz(chapter_id, api_key, ...)` (lines 103-290).  The prompt
text only flows into the abstracted model call, so the oracle `call`
subsumes it; every exception raised inside the `try` block is caught by the
outer handler and becomes `none`. -/
def generate_quiz (chapter_id api_key : String) (call : String → CallResult) : Option Json :=
  if api_key = "" then none
  else
    match get_chapter_info chapter_id with
    | none => none
    | some _ =>
      match tryModels call models_to_try none with
      | .success t => extract_quiz t
      | .fatal _ => none
      | .exhausted (some _) => none
      | .exhausted none => none

/-! ### Quiz session state machine (client script, lines 1346-1554) -/

structure Question where
  question : String
  options : List String
  correct : Nat
  explanation : String
  keyword : String
deriving DecidableEq

/-- One slot of the `answers` array: either the object stored by
`selectOption` or the one stored by `skipQuestion`.  JavaScript field
accesses on the other shape yield `undefined`, which the stat filters treat
as falsy; the filters below case on the shape accordingly. -/
inductive AnswerEntry where
  | answered (selected correct : Nat) (isCorrect : Bool) (question : String)
      (options : List String) (explanation keyword : String) : AnswerEntry
  | skip (keyword : String) : AnswerEntry
deriving DecidableEq

structure SessionState where
  quiz : List Question
  currentIndex : Nat
  answers : List (Option AnswerEntry)
  /-- Whether `showResults()` has been reached (results screen shown). -/
  finished : Bool
deriving DecidableEq

/-- Session initialisation in `startQuiz` (lines 1356-1358). -/
def startQuiz (qs : List Question) : SessionState :=
  ⟨qs, 0, List.replicate qs.length none, false⟩

/-- `selectOption(selectedIndex)` (lines 1410-1453): unconditionally stores
a fresh answer object for the current question; nothing guards an
already-answered question (the `disabled` CSS class only changes the
cursor), and the index does not advance. -/
def selectOption (st : SessionState) (selectedIndex : Nat) : SessionState :=
  match st.quiz.get? st.currentIndex with
  | none => st
  | some q =>
    let entry := AnswerEntry.answered selectedIndex q.correct
      (selectedIndex == q.correct) q.question q.options q.explanation q.keyword
    { st with answers := st.answers.set st.currentIndex (some entry) }

/-- `nextQuestion()` (lines 1471-1478): advance, or show the results screen
from the last question. -/
def nextQuestion (st : SessionState) : SessionState :=
  if st.currentIndex < st.quiz.length - 1 then { st with currentIndex := st.currentIndex + 1 }
  else { st with finished := true }

/-- `skipQuestion()` (lines 1455-1459): store a skip entry for the current
question, then immediately `nextQuestion()`. -/
def skipQuestion (st : SessionState) : SessionState :=
  match st.quiz.get? st.currentIndex with
  | none => st
  | some q =>
    nextQuestion { st with answers := st.answers.set st.currentIndex (some (.skip q.keyword)) }

/-- `a && a.isCorrect` — the filter for the correct tally. -/
def entryIsCorrect : Option AnswerEntry → Bool
  | some (.answered _ _ true _ _ _ _) => true
  | _ => false

/-- `a && a.isCorrect === false` — skip entries have no `isCorrect` field,
and `undefined === false` is false, so they do not count. -/
def entryIsIncorrect : Option AnswerEntry → Bool
  | some (.answered _ _ false _ _ _ _) => true
  | _ => false

/-- `a && a.skipped`. -/
def entryIsSkipped : Option AnswerEntry → Bool
  | some (.skip _) => true
  | _ => false

/-- `updateStats()` (lines 1461-1469): the three running tallies shown
during the quiz, as (correct, incorrect, skipped). -/
def updateStats (answers : List (Option AnswerEntry)) : Nat × Nat × Nat :=
  (answers.countP entryIsCorrect, answers.countP entryIsIncorrect, answers.countP entryIsSkipped)

/-- `a && a.keyword` then `.map(a => a.keyword)`: keep nonempty keywords. -/
def entryKeyword : Option AnswerEntry → Option String
  | some (.answered _ _ _ _ _ _ k) => if k = "" then none else some k
  | some (.skip k) => if k = "" then none else some k
  | none => none

/-- Worker for `dedupFirst`; filtering only shrinks the list, so fuel at
least the input length makes the first branch unreachable. -/
def dedupFirstGo : Nat → List String → List String
  | 0, _ => []
  | _ + 1, [] => []
  | fuel + 1, x :: xs => x :: dedupFirstGo fuel (xs.filter (fun y => ¬ y = x))

/-- `[...new Set(keywords)]`: deduplicate preserving first appearance. -/
def dedupFirst (l : List String) : List String := dedupFirstGo (l.length + 1) l

/-- The mistake list: `answers.filter(a => a && a.isCorrect === false)`. -/
def mistakesOf (answers : List (Option AnswerEntry)) : List AnswerEntry :=
  answers.filterMap fun a =>
    match a with
    | some (.answered s c false q o e k) => some (.answered s c false q o e k)
    | _ => none

/-- `m.explanation`; mistakes are always `answered` entries, so the `skip`
case is unreachable there. -/
def entryExplanation : AnswerEntry → String
  | .answered _ _ _ _ _ e _ => e
  | .skip _ => ""

def congratsTakeaway : String :=
  "Great job! You\x27ve mastered this chapter. Consider moving to the next one."

/-- Takeaway list (lines 1539-1542): explanations of the first 5 mistakes,
or a single congratulatory entry when there are none. -/
def takeawaysOf (answers : List (Option AnswerEntry)) : List String :=
  let ms := mistakesOf answers
  if ms.length > 0 then (ms.take 5).map entryExplanation else [congratsTakeaway]

/-- JavaScript `Math.round` on the (nonnegative) score ratio:
`floor(x + 1/2)`. -/
def jsRound (x : ℚ) : ℤ := ⌊x + 1 / 2⌋

structure QuizResults where
  correct : Nat
  incorrect : Nat
  skipped : Nat
  total : Nat
  percent : ℤ
  title : String
  subtitle : String
  keywords : List String
  mistakes : List AnswerEntry
  takeaways : List String
deriving DecidableEq

/-- `showResults()` (lines 1480-1554) as a pure function of the answers
array and the quiz: final tallies (recomputed by the same three filters as
`updateStats`), rounded percentage, qualitative tier, keyword set, mistake
list and takeaway list. -/
def showResults (answers : List (Option AnswerEntry)) (quiz : List Question) : QuizResults :=
  let correct := answers.countP entryIsCorrect
  let incorrect := answers.countP entryIsIncorrect
  let skipped := answers.countP entryIsSkipped
  let total := quiz.length
  let percent := jsRound (((correct : ℚ) / (total : ℚ)) * 100)
  let title :=
    if percent ≥ 80 then "🎉 Excellent Performance!"
    else if percent ≥ 60 then "👍 Good Job!"
    else if percent ≥ 40 then "📚 Keep Practicing!"
    else "💪 Don\x27t Give Up!"
  let subtitle :=
    if percent ≥ 80 then "You have a strong grasp of this chapter."
    else if percent ≥ 60 then "Review the mistakes to improve further."
    else if percent ≥ 40 then "Focus on the keywords and explanations below."
    else "Review this chapter and try again."
  { correct := correct, incorrect := incorrect, skipped := skipped, total := total
    percent := percent, title := title, subtitle := subtitle
    keywords := dedupFirst (answers.filterMap entryKeyword)
    mistakes := mistakesOf answers
    takeaways := takeawaysOf answers }

/-! ### Concrete session data used by the session-machine claims -/

def dq1 : Question := ⟨"Q1", ["a", "b", "c", "d"], 1, "E1", "K1"⟩

def dq2 : Question := ⟨"Q2", ["a", "b", "c", "d"], 0, "E2", "K2"⟩

def dq3 : Question := ⟨"Q3", ["a", "b", "c", "d"], 2, "E3", "K3"⟩

/-- The scenario of spec §8: answer 1 on Q1 (correct index 1), advance, skip
Q2 (which advances by itself in the source), answer 0 on Q3 (correct
index 2), advance into the results screen. -/
def c8Session : SessionState :=
  nextQuestion (selectOption (skipQuestion (nextQuestion (selectOption (startQuiz [dq1, dq2, dq3]) 1))) 0)

/-- First answer on Q1: option 1, which is correct. -/
def c1First : SessionState := selectOption (startQuiz [dq1, dq2, dq3]) 1

/-- Second `selectOption` call on the same, already-answered question. -/
def c1Second : SessionState := selectOption c1First 0

def ansNoMistakes : List (Option AnswerEntry) :=
  [some (.answered 1 1 true "Q" ["a", "b", "c", "d"] "E" "K")]

def wrongAt (i : Nat) : Option AnswerEntry :=
  some (.answered 0 1 false ("Q" ++ toString i) ["a", "b", "c", "d"] ("E" ++ toString i) "K")

def ansSevenMistakes : List (Option AnswerEntry) :=
  [wrongAt 1, wrongAt 2, wrongAt 3, wrongAt 4, wrongAt 5, wrongAt 6, wrongAt 7]

/-! ### Invariant carried by repaired question records -/

/-- The questions list of a returned quiz record, when present. -/
def questionsOf (j : Json) : List Json :=
  match j.getKey "questions" with
  | some (.arr l) => l
  | _ => []

/-- The per-question guarantee the validation path actually establishes: a
dict whose `options` value has a Python length of at least 4 and whose
`correct` value compares numerically below that length. -/
def qinvQ (q : Json) : Bool :=
  match q with
  | .obj f =>
    match getKeyF f "options", getKeyF f "correct" with
    | some opts, some cj =>
      match pyLen opts, correctVal cj with
      | .ok len, .ok c => decide (4 ≤ len) && decide (c < (len : Int))
      | _, _ => false
    | _, _ => false
  | _ => false

/-! ### Concrete pipeline inputs and oracles -/

/-- An oracle whose every model call succeeds with the same response
text. -/
def constOracle (t : String) : String → CallResult := fun _ => .ok t

/-- An oracle on which every model call raises a quota error. -/
def quotaOracle : String → CallResult := fun _ => .err "429 You exceeded your current quota"

/-- Candidate 1 raises a quota error; every other candidate succeeds. -/
def c7Oracle : String → CallResult := fun m =>
  if m = "gemini-2.5-flash-lite" then .err "429 quota exceeded for this model"
  else .ok "candidate-two-text"

/-- `\x7b"questions": []\x7d` — a parse that succeeds with zero
questions. -/
def emptyQuestionsText : String := "\x7b\"questions\": []\x7d"

/-- The five-option, negative-correct question payload. -/
def c4Text : String :=
  "\x7b\"questions\": [\x7b\"correct\": -1, \"options\": [\"a\", \"b\", \"c\", \"d\", \"e\"]\x7d]\x7d"

/-- What the validator hands back for `c4Text`: options and correct kept
as-is, placeholders added. -/
def c4Question : Json :=
  .obj [("correct", .num (-1)),
        ("options", .arr [.str "a", .str "b", .str "c", .str "d", .str "e"]),
        ("explanation", .str "Review this concept carefully."),
        ("keyword", .str "Important concept")]

/-- A question object that is missing `options` but carries `correct: 2`. -/
def c5Text : String := "\x7b\"questions\": [\x7b\"correct\": 2\x7d]\x7d"

/-- What the validator hands back for `c5Text`: default options, but the
present `correct` value 2 is kept. -/
def c5Question : Json :=
  .obj [("correct", .num 2), ("options", defaultOptions),
        ("explanation", .str "Review this concept carefully."),
        ("keyword", .str "Important concept")]

/-- An empty question object, fully repaired by the validator. -/
def c4WitnessText : String := "\x7b\"questions\": [\x7b\x7d]\x7d"

def c4WitnessQuestion : Json :=
  .obj [("correct", .num 0), ("options", defaultOptions),
        ("explanation", .str "Review this concept carefully."),
        ("keyword", .str "Important concept")]

def c4WitnessRecord : Json := .obj [("questions", .arr [c4WitnessQuestion])]

/-! ### Session-machine theorems -/

/-- C1: the claim says a second `answer(...)` call on an already-answered
question is rejected, leaving the first AnswerEntry and the tallies
unchanged.  The code intends this — `selectOption` adds the `disabled`
class to every option — but the stylesheet's `.option.disabled` rule only
changes the cursor, so clicks still dispatch `selectOption`, which
unconditionally overwrites `answers[currentQuestionIndex]`.  This theorem
evaluates the code at the failing input: after answering Q1 correctly
(option 1), a second call with option 0 replaces the stored entry and
flips the tallies from (1,0,0) to (0,1,0). -/
theorem claim_C1_second_answer_overwrites :
    c1First.answers.get? 0 = some (some (.answered 1 1 true "Q1" ["a", "b", "c", "d"] "E1" "K1"))
    ∧ updateStats c1First.answers = (1, 0, 0)
    ∧ c1Second.answers.get? 0 = some (some (.answered 0 1 false "Q1" ["a", "b", "c", "d"] "E1" "K1"))
    ∧ updateStats c1Second.answers = (0, 1, 0) := by decide

/-- C2 counterexample: `skipQuestion` on the first of two questions records
the skip entry but then advances `current_index` from 0 to 1, refuting
"leaves current_index unchanged". -/
theorem claim_C2_counterexample :
    (startQuiz [dq1, dq2]).currentIndex = 0
    ∧ (skipQuestion (startQuiz [dq1, dq2])).answers.get? 0 = some (some (.skip "K1"))
    ∧ (skipQuestion (startQuiz [dq1, dq2])).currentIndex = 1 := by decide

/-- C2 (amended): `skipQuestion` records a skip-type AnswerEntry for the
current question and then advances immediately (it calls `nextQuestion`
itself): `current_index` increments when the current question is not the
last one; on the last question the index stays and the results screen is
triggered instead. -/
theorem claim_C2_amended (st : SessionState) (q : Question)
    (hq : st.quiz.get? st.currentIndex = some q) :
    (skipQuestion st).answers = st.answers.set st.currentIndex (some (.skip q.keyword))
    ∧ (st.currentIndex < st.quiz.length - 1 →
        (skipQuestion st).currentIndex = st.currentIndex + 1
        ∧ (skipQuestion st).finished = st.finished)
    ∧ (¬ st.currentIndex < st.quiz.length - 1 →
        (skipQuestion st).currentIndex = st.currentIndex
        ∧ (skipQuestion st).finished = true) := by
  simp only [skipQuestion, hq, nextQuestion]
  refine ⟨?_, ?_, ?_⟩
  · split <;> rfl
  · intro h
    rw [if_pos h]
    exact ⟨rfl, rfl⟩
  · intro h
    rw [if_neg h]
    exact ⟨rfl, rfl⟩

/-- C2 witness: the amended statement at a concrete two-question session. -/
theorem claim_C2_witness :
    (startQuiz [dq1, dq2]).quiz.get? (startQuiz [dq1, dq2]).currentIndex = some dq1
    ∧ (skipQuestion (startQuiz [dq1, dq2])).answers
        = (startQuiz [dq1, dq2]).answers.set (startQuiz [dq1, dq2]).currentIndex (some (.skip dq1.keyword))
    ∧ (skipQuestion (startQuiz [dq1, dq2])).currentIndex = (startQuiz [dq1, dq2]).currentIndex + 1 :=
  ⟨rfl, (claim_C2_amended (startQuiz [dq1, dq2]) dq1 rfl).1,
    ((claim_C2_amended (startQuiz [dq1, dq2]) dq1 rfl).2.1 (by decide)).1⟩

/-- C8: the three-question scenario — Q1 answered with its correct index 1,
Q2 skipped, Q3 answered 0 against correct index 2 — completes with
correct=1, incorrect=1, skipped=1 and percent 33; in general the percent is
`round(100 * correct / total)`, and skip entries satisfy neither the
correct-tally filter nor the incorrect-tally filter. -/
theorem claim_C8_result_computation :
    (c8Session.finished = true
      ∧ (showResults c8Session.answers c8Session.quiz).correct = 1
      ∧ (showResults c8Session.answers c8Session.quiz).incorrect = 1
      ∧ (showResults c8Session.answers c8Session.quiz).skipped = 1
      ∧ (showResults c8Session.answers c8Session.quiz).percent = 33)
    ∧ (∀ answers quiz, (showResults answers quiz).percent =
        round (100 * (answers.countP entryIsCorrect : ℚ) / (quiz.length : ℚ)))
    ∧ (∀ k, entryIsCorrect (some (.skip k)) = false ∧ entryIsIncorrect (some (.skip k)) = false) := by
  refine ⟨⟨by decide, by decide, by decide, by decide, ?_⟩, ?_, ?_⟩
  · show jsRound (((1 : ℚ) / (3 : ℚ)) * 100) = 33
    unfold jsRound
    rw [Int.floor_eq_iff]
    norm_num
  · intro answers quiz
    show jsRound _ = _
    rw [jsRound, round_eq]
    ring_nf
  · intro k
    exact ⟨rfl, rfl⟩

/-- C9: with zero mistakes the takeaway list is exactly the single
congratulatory entry; with 7 mistakes it is exactly the explanations of the
first 5 mistakes (mistakes appear in original question order because the
filter preserves the answers-array order). -/
theorem claim_C9_takeaways :
    (∀ answers, mistakesOf answers = [] → takeawaysOf answers = [congratsTakeaway])
    ∧ (∀ answers, (mistakesOf answers).length = 7 →
        takeawaysOf answers = ((mistakesOf answers).take 5).map entryExplanation
        ∧ (takeawaysOf answers).length = 5) := by
  constructor
  · intro answers h
    simp [takeawaysOf, h]
  · intro answers h
    have hpos : (mistakesOf answers).length > 0 := by omega
    refine ⟨?_, ?_⟩
    · simp [takeawaysOf, hpos]
    · simp [takeawaysOf, hpos, h]

/-- C9 witness: a mistake-free answers array and a 7-mistake answers
array. -/
theorem claim_C9_witness :
    (mistakesOf ansNoMistakes = [] ∧ takeawaysOf ansNoMistakes = [congratsTakeaway])
    ∧ ((mistakesOf ansSevenMistakes).length = 7 ∧ (takeawaysOf ansSevenMistakes).length = 5) :=
  ⟨⟨rfl, claim_C9_takeaways.1 ansNoMistakes rfl⟩,
    ⟨rfl, (claim_C9_takeaways.2 ansSevenMistakes rfl).2⟩⟩

/-- C10: the running statistics (`updateStats`) and the final statistics
(`showResults`) agree on every answers array — both sides are the same
three filters over the array. -/
theorem claim_C10_stats_agree (answers : List (Option AnswerEntry)) (quiz : List Question) :
    updateStats answers =
      ((showResults answers quiz).correct, (showResults answers quiz).incorrect,
        (showResults answers quiz).skipped) := rfl

/-! ### Lookup lemmas for dict insertion -/

theorem getKeyF_map_self (f : List (String × Json)) (k : String) (v : Json)
    (h : f.any (fun p => p.1 = k) = true) :
    getKeyF (f.map (fun p => if p.1 = k then (k, v) else p)) k = some v := by
  induction f with
  | nil => simp at h
  | cons p rest ih =>
    simp only [List.map_cons]
    by_cases hp : p.1 = k
    · rw [if_pos hp]
      simp [getKeyF]
    · rw [if_neg hp]
      simp only [List.any_cons, Bool.or_eq_true, decide_eq_true_eq] at h
      rcases h with h | h
      · exact absurd h hp
      · simp only [getKeyF, if_neg hp]
        exact ih h

theorem getKeyF_append_right (f g : List (String × Json)) (k : String)
    (h : f.any (fun p => p.1 = k) = false) :
    getKeyF (f ++ g) k = getKeyF g k := by
  induction f with
  | nil => rfl
  | cons p rest ih =>
    simp only [List.any_cons, Bool.or_eq_false_iff, decide_eq_false_iff_not] at h
    simp only [List.cons_append, getKeyF, if_neg h.1]
    exact ih (by simp [h.2])

theorem getKeyF_insertKey_self (f : List (String × Json)) (k : String) (v : Json) :
    getKeyF (insertKey f k v) k = some v := by
  unfold insertKey
  split
  case isTrue h => exact getKeyF_map_self f k v h
  case isFalse h =>
    rw [getKeyF_append_right f _ k (Bool.eq_false_iff.mpr h)]
    simp [getKeyF]

theorem getKeyF_map_ne (f : List (String × Json)) (k : String) (v : Json) (k' : String)
    (hne : k' ≠ k) :
    getKeyF (f.map (fun p => if p.1 = k then (k, v) else p)) k' = getKeyF f k' := by
  induction f with
  | nil => rfl
  | cons p rest ih =>
    simp only [List.map_cons]
    by_cases hp : p.1 = k
    · have hpk : ¬ p.1 = k' := by
        rw [hp]
        exact fun hk => hne hk.symm
      rw [if_pos hp]
      simp only [getKeyF, if_neg (Ne.symm hne), if_neg hpk]
      exact ih
    · rw [if_neg hp]
      simp only [getKeyF]
      by_cases hq : p.1 = k'
      · rw [if_pos hq, if_pos hq]
      · rw [if_neg hq, if_neg hq]
        exact ih

theorem getKeyF_append_single_ne (f : List (String × Json)) (k : String) (v : Json) (k' : String)
    (hne : k' ≠ k) :
    getKeyF (f ++ [(k, v)]) k' = getKeyF f k' := by
  induction f with
  | nil =>
    simp only [List.nil_append, getKeyF, if_neg (Ne.symm hne)]
  | cons p rest ih =>
    simp only [List.cons_append, getKeyF]
    by_cases hp : p.1 = k'
    · rw [if_pos hp, if_pos hp]
    · rw [if_neg hp, if_neg hp]
      exact ih

theorem getKeyF_insertKey_ne (f : List (String × Json)) (k : String) (v : Json) (k' : String)
    (hne : k' ≠ k) :
    getKeyF (insertKey f k v) k' = getKeyF f k' := by
  unfold insertKey
  split
  · exact getKeyF_map_ne f k v k' hne
  · exact getKeyF_append_single_ne f k v k' hne

theorem getKeyF_clampCorrect_ne (f : List (String × Json)) (c : Int) (len : Nat) (k' : String)
    (hne : k' ≠ "correct") :
    getKeyF (clampCorrect f c len) k' = getKeyF f k' := by
  unfold clampCorrect
  split
  · exact getKeyF_insertKey_ne f _ _ k' hne
  · rfl

theorem getKeyF_clampCorrect_correct (f : List (String × Json)) (c : Int) (len : Nat) :
    getKeyF (clampCorrect f c len) "correct" =
      (if c ≥ (len : Int) then some (.num 0) else getKeyF f "correct") := by
  unfold clampCorrect
  split
  case isTrue h => exact getKeyF_insertKey_self f "correct" (.num 0)
  case isFalse h => rfl

theorem getKeyF_fillField_ne (f : List (String × Json)) (k : String) (v : Json) (k' : String)
    (hne : k' ≠ k) :
    getKeyF (fillField f k v) k' = getKeyF f k' := by
  unfold fillField
  split
  · rfl
  · exact getKeyF_insertKey_ne f k v k' hne

theorem getKeyF_fillField_fills (f : List (String × Json)) (k : String) (v : Json)
    (h : getKeyF f k = none) :
    getKeyF (fillField f k v) k = some v := by
  unfold fillField
  rw [h]
  simpa using getKeyF_insertKey_self f k v

/-- What `repairQ3` does to the fields it touches: `options` survives
untouched, `correct` is clamped to 0 exactly when its numeric value reaches
the options length, and absent `explanation`/`keyword` fields gain their
placeholders. -/
theorem repairQ3_proj (f : List (String × Json)) (cj opts : Json) (c : Int) (len : Nat)
    (hc : getKeyF f "correct" = some cj) (ho : getKeyF f "options" = some opts)
    (hcv : correctVal cj = .ok c) (hl : pyLen opts = .ok len) :
    ∃ f5, repairQ3 f = .ok (.obj f5)
      ∧ getKeyF f5 "options" = some opts
      ∧ getKeyF f5 "correct" = (if c ≥ (len : Int) then some (.num 0) else some cj)
      ∧ (getKeyF f "explanation" = none →
          getKeyF f5 "explanation" = some (.str "Review this concept carefully."))
      ∧ (getKeyF f "keyword" = none →
          getKeyF f5 "keyword" = some (.str "Important concept")) := by
  refine ⟨fillField
      (fillField (clampCorrect f c len) "explanation" (.str "Review this concept carefully."))
      "keyword" (.str "Important concept"), ?_, ?_, ?_, ?_, ?_⟩
  · simp only [repairQ3, hc, ho, hcv, hl]
  · rw [getKeyF_fillField_ne _ "keyword" _ "options" (by decide),
      getKeyF_fillField_ne _ "explanation" _ "options" (by decide),
      getKeyF_clampCorrect_ne _ _ _ "options" (by decide)]
    exact ho
  · rw [getKeyF_fillField_ne _ "keyword" _ "correct" (by decide),
      getKeyF_fillField_ne _ "explanation" _ "correct" (by decide),
      getKeyF_clampCorrect_correct, hc]
  · intro hnone
    rw [getKeyF_fillField_ne _ "keyword" _ "explanation" (by decide)]
    exact getKeyF_fillField_fills _ _ _
      (by rw [getKeyF_clampCorrect_ne _ _ _ "explanation" (by decide)]; exact hnone)
  · intro hnone
    exact getKeyF_fillField_fills _ _ _
      (by rw [getKeyF_fillField_ne _ "explanation" _ "keyword" (by decide),
            getKeyF_clampCorrect_ne _ _ _ "keyword" (by decide)]; exact hnone)

theorem ensureCorrect_finds (f : List (String × Json)) :
    ∃ cj, getKeyF (ensureCorrect f) "correct" = some cj
      ∧ (getKeyF f "correct" = none → cj = .num 0)
      ∧ (∀ c0, getKeyF f "correct" = some c0 → cj = c0) := by
  unfold ensureCorrect
  cases hc : getKeyF f "correct" with
  | none =>
    refine ⟨.num 0, by simp [getKeyF_insertKey_self], fun _ => rfl, ?_⟩
    intro c0 hc0
    cases hc0
  | some c0 =>
    refine ⟨c0, by simpa using hc, ?_, ?_⟩
    · intro hn
      cases hn
    · intro c1 hc1
      cases hc1
      rfl

theorem ensureCorrect_ne (f : List (String × Json)) (k' : String) (hne : k' ≠ "correct") :
    getKeyF (ensureCorrect f) k' = getKeyF f k' := by
  unfold ensureCorrect
  split
  · rfl
  · exact getKeyF_insertKey_ne f _ _ k' hne

/-- If step 3 of the repair succeeds with an options value of length at
least 4 in place, the result satisfies the question invariant. -/
theorem repairQ3_inv_of (f : List (String × Json)) (opts : Json) (len : Nat) (q' : Json)
    (ho : getKeyF f "options" = some opts) (hl : pyLen opts = .ok len) (h4 : 4 ≤ len)
    (h : repairQ3 f = .ok q') : qinvQ q' = true := by
  cases hc : getKeyF f "correct" with
  | none =>
    simp only [repairQ3, hc, ho] at h
    exact Except.noConfusion h
  | some cj =>
    cases hv : correctVal cj with
    | error e =>
      simp only [repairQ3, hc, ho, hv, hl] at h
      exact Except.noConfusion h
    | ok c =>
      obtain ⟨f5, hrep, ho5, hc5, _, _⟩ := repairQ3_proj f cj opts c len hc ho hv hl
      have hq : q' = .obj f5 := by
        rw [hrep] at h
        simpa using h.symm
      subst hq
      by_cases hge : c ≥ (len : Int)
      · rw [if_pos hge] at hc5
        simp only [qinvQ, ho5, hc5, hl, correctVal, Bool.and_eq_true, decide_eq_true_eq]
        omega
      · rw [if_neg hge] at hc5
        simp only [qinvQ, ho5, hc5, hl, hv, Bool.and_eq_true, decide_eq_true_eq]
        omega

/-- Every question record the repair loop lets through satisfies the
invariant. -/
theorem repairQ_ok_inv (q q' : Json) (h : repairQ q = .ok q') : qinvQ q' = true := by
  cases q with
  | obj f0 =>
    cases ho : getKeyF (ensureCorrect f0) "options" with
    | none =>
      simp only [repairQ, ho] at h
      exact repairQ3_inv_of _ defaultOptions 4 q'
        (getKeyF_insertKey_self _ "options" defaultOptions) rfl (by omega) h
    | some opts =>
      cases hl : pyLen opts with
      | error e =>
        simp only [repairQ, ho, hl] at h
        exact Except.noConfusion h
      | ok len =>
        simp only [repairQ, ho, hl] at h
        by_cases hlt : len < 4
        · rw [if_pos hlt] at h
          exact repairQ3_inv_of _ defaultOptions 4 q'
            (getKeyF_insertKey_self _ "options" defaultOptions) rfl (by omega) h
        · rw [if_neg hlt] at h
          exact repairQ3_inv_of _ opts len q' ho hl (by omega) h
  | null => exact Except.noConfusion h
  | bool b => exact Except.noConfusion h
  | num n => exact Except.noConfusion h
  | str s => exact Except.noConfusion h
  | arr l => exact Except.noConfusion h

/-- Membership through the sequential repair loop. -/
theorem repairAll_mem (qs qs' : List Json) (h : repairAll qs = .ok qs') :
    ∀ q' ∈ qs', ∃ q, q ∈ qs ∧ repairQ q = .ok q' := by
  induction qs generalizing qs' with
  | nil =>
    simp only [repairAll, Except.ok.injEq] at h
    subst h
    intro q' hq'
    cases hq'
  | cons q rest ih =>
    cases hr : repairQ q with
    | error e =>
      simp only [repairAll, hr] at h
      exact Except.noConfusion h
    | ok q1 =>
      cases ha : repairAll rest with
      | error e =>
        simp only [repairAll, hr, ha] at h
        exact Except.noConfusion h
      | ok rest' =>
        simp only [repairAll, hr, ha, Except.ok.injEq] at h
        subst h
        intro q' hq'
        rcases List.mem_cons.mp hq' with h1 | h2
        · exact ⟨q, List.mem_cons_self q rest, by rw [hr, h1]⟩
        · obtain ⟨q0, hq0, hrep⟩ := ih rest' ha q' h2
          exact ⟨q0, List.mem_cons_of_mem q hq0, hrep⟩

/-- Every record the validation path returns carries the repaired-question
invariant on its questions list. -/
theorem validateParsed_ret_inv (qd j : Json) (h : validateParsed qd = .ret j) :
    ∀ q ∈ questionsOf j, qinvQ q = true := by
  cases hcont : pyContains qd "questions" with
  | error e =>
    simp only [validateParsed, hcont] at h
    exact P1Result.noConfusion h
  | ok b =>
    cases b with
    | false =>
      simp only [validateParsed, hcont] at h
      exact P1Result.noConfusion h
    | true =>
      cases hget : pyGetItem qd "questions" with
      | error e =>
        simp only [validateParsed, hcont, hget] at h
        exact P1Result.noConfusion h
      | ok qv =>
        cases hlen : pyLen qv with
        | error e =>
          simp only [validateParsed, hcont, hget, hlen] at h
          exact P1Result.noConfusion h
        | ok n =>
          simp only [validateParsed, hcont, hget, hlen] at h
          by_cases hn : n > 0
          · rw [if_pos hn] at h
            cases qv with
            | arr qs =>
              dsimp only at h
              cases hra : repairAll qs with
              | error e =>
                rw [hra] at h
                exact P1Result.noConfusion h
              | ok qs' =>
                rw [hra] at h
                simp only [P1Result.ret.injEq] at h
                cases qd with
                | obj fq =>
                  have hqs : questionsOf j = qs' := by
                    rw [← h]
                    simp only [questionsOf, Json.setKey, Json.getKey, getKeyF_insertKey_self]
                  rw [hqs]
                  intro q' hq'
                  obtain ⟨q0, _, hrep⟩ := repairAll_mem qs qs' hra q' hq'
                  exact repairQ_ok_inv q0 q' hrep
                | null => exact absurd hget (by simp [pyGetItem])
                | bool b2 => exact absurd hget (by simp [pyGetItem])
                | num n2 => exact absurd hget (by simp [pyGetItem])
                | str s2 => exact absurd hget (by simp [pyGetItem])
                | arr l2 => exact absurd hget (by simp [pyGetItem])
            | null => exact P1Result.noConfusion h
            | bool b2 => exact P1Result.noConfusion h
            | num n2 => exact P1Result.noConfusion h
            | str s2 => exact P1Result.noConfusion h
            | obj f2 => exact P1Result.noConfusion h
          · rw [if_neg hn] at h
            exact P1Result.noConfusion h

/-! ### Pipeline theorems -/

/-- C3: the claim (and spec) says a record with zero questions after parse
is treated as failure on every extraction path.  The largest-substring path
does enforce `len(...) > 0`, but the whole-text fallback only checks
`'questions' in quiz_data`, so the zero-question record comes back through
it: at the failing input `\x7b"questions": []\x7d` the validation path falls
through and `generate_quiz` returns the zero-question record instead of
none. -/
theorem claim_C3_zero_questions_returned :
    generate_quiz "ff_p1" "AIzaTest" (constOracle emptyQuestionsText)
      = some (.obj [("questions", .arr [])])
    ∧ path1 (cleanResponse emptyQuestionsText) = .fallthrough := ⟨by rfl, by rfl⟩

/-- C4 counterexample: a question whose options list has five entries and
whose correct index is -1 is returned untouched by those two repairs (only
the absent explanation/keyword get placeholders), refuting "exactly 4
entries" and "correct index in [0,4)". -/
theorem claim_C4_counterexample :
    generate_quiz "ff_p1" "AIzaTest" (constOracle c4Text)
      = some (.obj [("questions", .arr [c4Question])])
    ∧ c4Question.getKey "options"
        = some (.arr [.str "a", .str "b", .str "c", .str "d", .str "e"])
    ∧ ([Json.str "a", .str "b", .str "c", .str "d", .str "e"].length = 4 → False)
    ∧ c4Question.getKey "correct" = some (.num (-1))
    ∧ ((0 : Int) ≤ -1 → False) := ⟨by rfl, by rfl, by decide, by rfl, by decide⟩

/-- C4 (amended): every record returned through the largest-substring
validation path satisfies, for each of its questions, the invariant the
repair actually enforces — a Python length of at least 4 for `options`
(not exactly 4) and a numeric `correct` strictly below that length (with no
lower bound).  The whole-text fallback path performs no per-question
validation at all, so no such guarantee holds there (it can return records
whose questions were never repaired, e.g. when the `questions` key is
written with a `q` escape so the substring search misses it). -/
theorem claim_C4_amended (raw : String) (j : Json)
    (h : path1 (cleanResponse raw) = .ret j) :
    extract_quiz raw = some j ∧ ∀ q ∈ questionsOf j, qinvQ q = true := by
  constructor
  · simp only [extract_quiz, h]
  · rw [path1] at h
    cases hre : regexSearchQ (cleanResponse raw) with
    | none =>
      rw [hre] at h
      exact P1Result.noConfusion h
    | some m =>
      rw [hre] at h
      dsimp only at h
      cases hld : json_loads (String.mk m) with
      | none =>
        rw [hld] at h
        exact P1Result.noConfusion h
      | some qd =>
        rw [hld] at h
        exact validateParsed_ret_inv qd j h

/-- C4 witness: the single empty question object is repaired into a record
that the validation path returns and that satisfies the invariant. -/
theorem claim_C4_witness :
    path1 (cleanResponse c4WitnessText) = .ret c4WitnessRecord
    ∧ extract_quiz c4WitnessText = some c4WitnessRecord
    ∧ qinvQ c4WitnessQuestion = true :=
  ⟨by rfl, (claim_C4_amended c4WitnessText c4WitnessRecord (by rfl)).1,
    (claim_C4_amended c4WitnessText c4WitnessRecord (by rfl)).2 c4WitnessQuestion
      (show c4WitnessQuestion ∈ questionsOf c4WitnessRecord from List.Mem.head _)⟩

/-- C5 counterexample: a question object missing `options` but carrying
`correct: 2` gets the 4-element default list, yet its correct index stays 2
(the clamp only fires at `correct >= len(options)`), refuting the claimed
unconditional `correct_index = 0`. -/
theorem claim_C5_counterexample :
    generate_quiz "ff_p1" "AIzaTest" (constOracle c5Text)
      = some (.obj [("questions", .arr [c5Question])])
    ∧ c5Question.getKey "options" = some defaultOptions
    ∧ c5Question.getKey "correct" = some (.num 2)
    ∧ ((2 : Int) = 0 → False) := ⟨by rfl, by rfl, by rfl, by decide⟩

theorem repairQ3_ok_fills (f : List (String × Json)) (q' : Json) (h : repairQ3 f = .ok q') :
    (getKeyF f "explanation" = none →
      q'.getKey "explanation" = some (.str "Review this concept carefully."))
    ∧ (getKeyF f "keyword" = none → q'.getKey "keyword" = some (.str "Important concept")) := by
  cases hc : getKeyF f "correct" with
  | none =>
    simp only [repairQ3, hc] at h
    exact Except.noConfusion h
  | some cj =>
    cases ho : getKeyF f "options" with
    | none =>
      simp only [repairQ3, hc, ho] at h
      exact Except.noConfusion h
    | some opts =>
      cases hv : correctVal cj with
      | error e =>
        simp only [repairQ3, hc, ho, hv] at h
        exact Except.noConfusion h
      | ok c =>
        cases hl : pyLen opts with
        | error e =>
          simp only [repairQ3, hc, ho, hv, hl] at h
          exact Except.noConfusion h
        | ok len =>
          obtain ⟨f5, hrep, _, _, hfe, hfk⟩ := repairQ3_proj f cj opts c len hc ho hv hl
          have hq : q' = .obj f5 := by
            rw [hrep] at h
            simpa using h.symm
          subst hq
          exact ⟨fun hn => by simpa [Json.getKey] using hfe hn,
            fun hn => by simpa [Json.getKey] using hfk hn⟩

/-- Absent `explanation`/`keyword` fields always come back as the generic
placeholders, through every branch of the repair. -/
theorem repairQ_ok_fills (f : List (String × Json)) (q' : Json) (h : repairQ (.obj f) = .ok q') :
    (getKeyF f "explanation" = none →
      q'.getKey "explanation" = some (.str "Review this concept carefully."))
    ∧ (getKeyF f "keyword" = none → q'.getKey "keyword" = some (.str "Important concept")) := by
  have step : ∀ g, repairQ3 g = .ok q' →
      getKeyF g "explanation" = getKeyF f "explanation" →
      getKeyF g "keyword" = getKeyF f "keyword" →
      (getKeyF f "explanation" = none →
        q'.getKey "explanation" = some (.str "Review this concept carefully."))
      ∧ (getKeyF f "keyword" = none →
        q'.getKey "keyword" = some (.str "Important concept")) := by
    intro g hg he hk
    obtain ⟨h1, h2⟩ := repairQ3_ok_fills g q' hg
    exact ⟨fun hn => h1 (he.trans hn), fun hn => h2 (hk.trans hn)⟩
  cases ho : getKeyF (ensureCorrect f) "options" with
  | none =>
    simp only [repairQ, ho] at h
    exact step _ h
      (by rw [getKeyF_insertKey_ne _ "options" _ "explanation" (by decide),
        ensureCorrect_ne f "explanation" (by decide)])
      (by rw [getKeyF_insertKey_ne _ "options" _ "keyword" (by decide),
        ensureCorrect_ne f "keyword" (by decide)])
  | some opts =>
    cases hl : pyLen opts with
    | error e =>
      simp only [repairQ, ho, hl] at h
      exact Except.noConfusion h
    | ok len =>
      simp only [repairQ, ho, hl] at h
      by_cases hlt : len < 4
      · rw [if_pos hlt] at h
        exact step _ h
          (by rw [getKeyF_insertKey_ne _ "options" _ "explanation" (by decide),
            ensureCorrect_ne f "explanation" (by decide)])
          (by rw [getKeyF_insertKey_ne _ "options" _ "keyword" (by decide),
            ensureCorrect_ne f "keyword" (by decide)])
      · rw [if_neg hlt] at h
        exact step _ h (ensureCorrect_ne f "explanation" (by decide))
          (ensureCorrect_ne f "keyword" (by decide))

/-- C5 (amended): on a question object missing `options`, the repair
substitutes the 4-element default list, and the correct index becomes 0
exactly when `correct` was absent or its value reaches 4 — a present value
below 4 is kept, not zeroed.  `correct: 5` with a 4-element options list
still clamps to 0, and absent explanation/keyword fields get the generic
placeholders. -/
theorem claim_C5_amended :
    (∀ f, getKeyF f "options" = none → getKeyF f "correct" = none →
      ∃ f5, repairQ (.obj f) = .ok (.obj f5)
        ∧ getKeyF f5 "options" = some defaultOptions
        ∧ getKeyF f5 "correct" = some (.num 0))
    ∧ (∀ f c, getKeyF f "options" = none → getKeyF f "correct" = some (.num c) →
      ∃ f5, repairQ (.obj f) = .ok (.obj f5)
        ∧ getKeyF f5 "options" = some defaultOptions
        ∧ getKeyF f5 "correct" = some (.num (if c ≥ 4 then 0 else c)))
    ∧ (∀ f os, getKeyF f "correct" = some (.num 5) → getKeyF f "options" = some (.arr os) →
        os.length = 4 →
      ∃ f5, repairQ (.obj f) = .ok (.obj f5) ∧ getKeyF f5 "correct" = some (.num 0))
    ∧ (∀ f q', repairQ (.obj f) = .ok q' →
        (getKeyF f "explanation" = none →
          q'.getKey "explanation" = some (.str "Review this concept carefully."))
        ∧ (getKeyF f "keyword" = none →
          q'.getKey "keyword" = some (.str "Important concept"))) := by
  refine ⟨?_, ?_, ?_, fun f q' h => repairQ_ok_fills f q' h⟩
  · intro f ho hc
    have ho1 : getKeyF (ensureCorrect f) "options" = none := by
      rw [ensureCorrect_ne f "options" (by decide)]
      exact ho
    obtain ⟨cj, hcj, hnone, _⟩ := ensureCorrect_finds f
    have hcj0 : getKeyF (ensureCorrect f) "correct" = some (.num 0) := by
      rw [hcj, hnone hc]
    have hcg : getKeyF (insertKey (ensureCorrect f) "options" defaultOptions) "correct"
        = some (.num 0) := by
      rw [getKeyF_insertKey_ne _ "options" _ "correct" (by decide)]
      exact hcj0
    obtain ⟨f5, hrep, ho5, hc5, _, _⟩ := repairQ3_proj _ (.num 0) defaultOptions 0 4 hcg
      (getKeyF_insertKey_self _ "options" defaultOptions) rfl rfl
    refine ⟨f5, ?_, ho5, ?_⟩
    · simp only [repairQ, ho1]
      exact hrep
    · rw [hc5, if_neg (by norm_num)]
  · intro f c ho hc
    have ho1 : getKeyF (ensureCorrect f) "options" = none := by
      rw [ensureCorrect_ne f "options" (by decide)]
      exact ho
    obtain ⟨cj, hcj, _, hsome⟩ := ensureCorrect_finds f
    have hcjc : getKeyF (ensureCorrect f) "correct" = some (.num c) := by
      rw [hcj, hsome (.num c) hc]
    have hcg : getKeyF (insertKey (ensureCorrect f) "options" defaultOptions) "correct"
        = some (.num c) := by
      rw [getKeyF_insertKey_ne _ "options" _ "correct" (by decide)]
      exact hcjc
    obtain ⟨f5, hrep, ho5, hc5, _, _⟩ := repairQ3_proj _ (.num c) defaultOptions c 4 hcg
      (getKeyF_insertKey_self _ "options" defaultOptions) rfl rfl
    refine ⟨f5, ?_, ho5, ?_⟩
    · simp only [repairQ, ho1]
      exact hrep
    · rw [hc5]
      by_cases hge : c ≥ (4 : Int)
      · rw [if_pos (by exact_mod_cast hge), if_pos hge]
      · rw [if_neg (by exact_mod_cast hge), if_neg hge]
  · intro f os hc ho hos4
    have he : ensureCorrect f = f := by
      unfold ensureCorrect
      rw [hc]
      rfl
    have hlen : pyLen (.arr os) = .ok 4 := by
      simp [pyLen, hos4]
    obtain ⟨f5, hrep, ho5, hc5, _, _⟩ := repairQ3_proj f (.num 5) (.arr os) 5 4 hc ho rfl hlen
    refine ⟨f5, ?_, ?_⟩
    · simp only [repairQ, he, ho, hlen]
      rw [if_neg (by omega)]
      exact hrep
    · rw [hc5, if_pos (by norm_num)]

/-- C5 witness: the amended statement at an empty question object and at a
`correct: 5` object with four options. -/
theorem claim_C5_witness :
    (∃ f5, repairQ (.obj []) = .ok (.obj f5)
      ∧ getKeyF f5 "options" = some defaultOptions
      ∧ getKeyF f5 "correct" = some (.num 0))
    ∧ (∃ f5, repairQ (.obj [("correct", .num 5),
          ("options", .arr [.str "a", .str "b", .str "c", .str "d"])]) = .ok (.obj f5)
      ∧ getKeyF f5 "correct" = some (.num 0)) :=
  ⟨claim_C5_amended.1 [] rfl rfl,
    claim_C5_amended.2.2.1 [("correct", .num 5),
      ("options", .arr [.str "a", .str "b", .str "c", .str "d"])]
      [.str "a", .str "b", .str "c", .str "d"] rfl rfl rfl⟩

/-- When every candidate raises a quota error, the loop exhausts the list
(recording the error as it goes). -/
theorem tryModels_all_quota (call : String → CallResult) :
    ∀ (ms : List String) (le : Option String),
      (∀ m ∈ ms, ∃ msg, call m = .err msg ∧ isQuotaErr msg = true) →
      ∃ e, tryModels call ms le = .exhausted e := by
  intro ms
  induction ms with
  | nil => exact fun le _ => ⟨le, rfl⟩
  | cons m rest ih =>
    intro le h
    obtain ⟨msg, hm, hq⟩ := h m (List.mem_cons_self m rest)
    obtain ⟨e, he⟩ := ih (some msg) (fun m' hm' => h m' (List.mem_cons_of_mem m hm'))
    refine ⟨e, ?_⟩
    simp only [tryModels, hm, hq, if_true]
    exact he

/-- C6: `generate_quiz` returns none — never an exception, every raise
inside the `try` block lands in the outer handler, which the embedding
folds into `none` — when the credential is missing, when the chapter id is
unknown, when every candidate model raises a quota error, and when the
chain succeeds but the response text is unparseable by every extraction
fallback. -/
theorem claim_C6_failure_modes :
    (∀ cid call, generate_quiz cid "" call = none)
    ∧ (∀ cid key call, get_chapter_info cid = none → generate_quiz cid key call = none)
    ∧ (∀ cid key call,
        (∀ m ∈ models_to_try, ∃ msg, call m = .err msg ∧ isQuotaErr msg = true) →
        generate_quiz cid key call = none)
    ∧ (∀ cid key call t, tryModels call models_to_try none = .success t →
        extract_quiz t = none → generate_quiz cid key call = none) := by
  refine ⟨?_, ?_, ?_, ?_⟩
  · intro cid call
    simp [generate_quiz]
  · intro cid key call h
    by_cases hk : key = ""
    · simp [generate_quiz, hk]
    · simp [generate_quiz, hk, h]
  · intro cid key call h
    by_cases hk : key = ""
    · simp [generate_quiz, hk]
    · obtain ⟨e, he⟩ := tryModels_all_quota call models_to_try none h
      simp only [generate_quiz, if_neg hk]
      cases hc : get_chapter_info cid with
      | none => rfl
      | some info =>
        simp only [he]
        cases e with
        | none => rfl
        | some msg => rfl
  · intro cid key call t hs hx
    by_cases hk : key = ""
    · simp [generate_quiz, hk]
    · simp only [generate_quiz, if_neg hk]
      cases hc : get_chapter_info cid with
      | none => rfl
      | some info =>
        simp only [hs]
        exact hx

/-- C6 witness: the all-quota oracle and an unparseable-response oracle both
drive `generate_quiz` to none at a valid chapter and credential. -/
theorem claim_C6_witness :
    generate_quiz "ff_p1" "AIzaTest" quotaOracle = none
    ∧ generate_quiz "ff_p1" "AIzaTest" (constOracle "hello") = none :=
  ⟨claim_C6_failure_modes.2.2.1 "ff_p1" "AIzaTest" quotaOracle
      (fun m _ => ⟨"429 You exceeded your current quota", rfl, by decide⟩),
    claim_C6_failure_modes.2.2.2 "ff_p1" "AIzaTest" (constOracle "hello") "hello" rfl (by rfl)⟩

/-- C7: the fallback chain tries candidates strictly in priority order.
Conjunct 1 is the spec scenario: if candidate 1 raises a quota error and
candidate 2 returns non-empty text, the chain returns candidate 2's text —
for every oracle, so candidates 3 and 4 are never consulted.  Conjunct 2:
the first non-empty success is returned immediately.  Conjunct 3: an error
that is neither quota nor model-unavailable aborts the whole chain at once.
Conjunct 4: exactly the quota/unavailable classifications continue to the
next candidate, recording the message. -/
theorem claim_C7_fallback_chain :
    (∀ call t msg, call "gemini-2.5-flash-lite" = .err msg → isQuotaErr msg = true →
      call "gemini-2.0-flash" = .ok t → t ≠ "" →
      tryModels call models_to_try none = .success t)
    ∧ (∀ call rest m t le, call m = .ok t → t ≠ "" → tryModels call (m :: rest) le = .success t)
    ∧ (∀ call rest m msg le, call m = .err msg → isQuotaErr msg = false →
        isUnavailableErr msg = false → tryModels call (m :: rest) le = .fatal msg)
    ∧ (∀ call rest m msg le, call m = .err msg →
        (isQuotaErr msg = true ∨ isUnavailableErr msg = true) →
        tryModels call (m :: rest) le = tryModels call rest (some msg)) := by
  refine ⟨?_, ?_, ?_, ?_⟩
  · intro call t msg h1 hq h2 ht
    simp only [models_to_try, tryModels, h1, hq, if_true, h2, if_neg ht]
  · intro call rest m t le hm ht
    simp only [tryModels, hm, if_neg ht]
  · intro call rest m msg le hm hq hu
    simp only [tryModels, hm, hq, hu, Bool.false_eq_true, if_false]
  · intro call rest m msg le hm hqu
    rcases hqu with hq | hu
    · simp only [tryModels, hm, hq, if_true]
    · cases hq : isQuotaErr msg
      · simp only [tryModels, hm, hq, hu, if_true, Bool.false_eq_true, if_false]
      · simp only [tryModels, hm, hq, if_true]

/-- C7 witness: on the concrete oracle where candidate 1 hits quota and the
others respond, the chain returns candidate 2's text. -/
theorem claim_C7_witness :
    tryModels c7Oracle models_to_try none = .success "candidate-two-text" :=
  claim_C7_fallback_chain.1 c7Oracle "candidate-two-text" "429 quota exceeded for this model"
    rfl (by decide) rfl (by decide)
